import Mathlib

/-!
# Verification of the TestRail pre-run modifier

Shallow embedding of the run-filtering and stability-analysis component
(`TestRailPreRunModifier.py`) and of the pieces of the HTTP client
(`TestRailAPIClient.py`) it consults.  Network I/O is abstracted: each
tracker response that the Python code would fetch over HTTP is passed in
as data (a list of records, or a function from request parameters to a
response / error).  Exceptions are modelled with `Except`.
-/

/-- `TESTRAIL_STATUS_ID_PASSED = 1` from `TestRailAPIClient.py`. -/
def TESTRAIL_STATUS_ID_PASSED : Nat := 1

/-- One record of the `get_tests` response: the modifier reads only
`case_id`, which may be null. -/
structure TestRec where
  case_id : Option Nat
deriving Repr, DecidableEq

/-- One record of the `get_results_for_case` response: the modifier reads
only `status_id`. -/
structure ResultRec where
  status_id : Nat
deriving Repr, DecidableEq

/-- One record of the `get_statuses` response: `get_status_id_by_status_label`
reads `label` and `id`. -/
structure StatusRec where
  label : String
  id : Nat
deriving Repr, DecidableEq

/-- Exceptions that reach the modifier: `requests.exceptions.RequestException`,
`concurrent.futures.TimeoutError`, and any other exception (such as the plain
`Exception` raised for an unknown status label). -/
inductive TRError where
  | requestError (msg : String)
  | timeoutError (msg : String)
  | otherError (msg : String)
deriving Repr, DecidableEq

/-- The communication errors caught by `start_suite`:
`(RequestException, TimeoutError)`. -/
def is_comm_error : TRError → Bool
  | TRError.requestError _ => true
  | TRError.timeoutError _ => true
  | TRError.otherError _ => false

/-- Python's `s.lower()` as used in the label comparison, modelled on the
character list of the string. -/
def lower_chars (s : String) : List Char :=
  s.data.map Char.toLower

/-- `get_status_id_by_status_label` (TestRailAPIClient.py lines 175-188):
scan `statuses_info` in order, return the id of the first status whose
label matches case-insensitively, else raise a plain `Exception`. -/
def get_status_id_by_status_label (statuses_info : List StatusRec)
    (status_label : String) : Except TRError Nat :=
  match statuses_info.find? (fun s => lower_chars s.label == lower_chars status_label) with
  | some s => Except.ok s.id
  | none => Except.error (TRError.otherError
      ("There is no status with label " ++ status_label ++ " in TestRail"))

/-- The tag string `'testrailid={}'.format(case_id)` built for a non-null
case id. -/
def tag_of_case_id (cid : Nat) : String :=
  "testrailid=" ++ toString cid

/-- The list comprehension of `_get_tr_tags_list` line 123: one tag per
test record whose `case_id` is not `None`. -/
def tags_of_tests (tests_info : List TestRec) : List String :=
  tests_info.filterMap (fun t => t.case_id.map tag_of_case_id)

/-- `_get_tr_tags_list` (TestRailPreRunModifier.py lines 105-123).
`statuses_info` stands for the `get_statuses` response consulted by the
label lookups; `get_tests` stands for the tracker call
`get_tests(run_id, status_ids)` (its `run_id` is fixed by the instance). -/
def get_tr_tags_list (statuses_info : List StatusRec) (status_names : List String)
    (get_tests : Option (List Nat) → Except TRError (List TestRec)) :
    Except TRError (List String) := do
  let status_ids : Option (List Nat) ←
    if status_names.isEmpty then pure none
    else do
      let ids ← status_names.mapM (fun name => get_status_id_by_status_label statuses_info name)
      pure (some ids)
  let tests_info ← get_tests status_ids
  pure (tags_of_tests tests_info)

/-- The stability test of `future_handler` lines 152-154: keep the passed
results and compare their count with `results_depth`. -/
def classify_stable (results_depth : Nat) (case_results : List ResultRec) : Bool :=
  (case_results.filter (fun r => r.status_id == TESTRAIL_STATUS_ID_PASSED)).length
    == results_depth

/-- The spec wording of stability, for comparison with the code's
`classify_stable`: the returned result list has length exactly
`results_depth` and every entry has `status_id == PASSED`. -/
def stable_per_spec (results_depth : Nat) (case_results : List ResultRec) : Bool :=
  case_results.length == results_depth &&
    case_results.all (fun r => r.status_id == TESTRAIL_STATUS_ID_PASSED)

/-- `future_handler` (lines 141-155): a `RequestException` from the fetch is
captured into the exception list, otherwise the case id is appended to the
stable list when `classify_stable` holds.  The accumulator pairs
`stable_case_ids_list` with `catched_exceptions`; fetch failures are
`RequestException`s, carried as their message string. -/
def future_handler (results_depth : Nat) (case_id : Nat)
    (outcome : Except String (List ResultRec))
    (acc : List Nat × List String) : List Nat × List String :=
  match outcome with
  | Except.error e => (acc.1, acc.2 ++ [e])
  | Except.ok case_results =>
    if classify_stable results_depth case_results then (acc.1 ++ [case_id], acc.2)
    else acc

/-- `_get_tr_stable_tags_list` (lines 125-166).  `passed_tests_info` stands
for the response of `get_tests(run_id, status_ids=[PASSED])`; `fetch cid`
stands for the outcome of `get_results_for_case(run_id, cid, results_depth)`
dispatched on the pool.  Futures are processed in submission order here;
the Python `as_completed` order is a scheduler-dependent permutation, which
none of the verified properties depend on beyond which error is first. -/
def get_tr_stable_tags_list (results_depth : Nat) (passed_tests_info : List TestRec)
    (fetch : Nat → Except String (List ResultRec)) : Except TRError (List String) :=
  match (passed_tests_info.filterMap (fun t => t.case_id)).foldl
      (fun acc cid => future_handler results_depth cid (fetch cid) acc) ([], []) with
  | (stable_ids, []) => Except.ok (stable_ids.map tag_of_case_id)
  | (_, e :: _) => Except.error (TRError.requestError e)

/-- The `RequestException`s captured across the fan-out, in processing
order: one entry per case id whose fetch raised. -/
def captured_errors (fetch : Nat → Except String (List ResultRec))
    (case_ids : List Nat) : List String :=
  case_ids.filterMap (fun cid =>
    match fetch cid with
    | Except.error e => some e
    | Except.ok _ => none)

/-- A Robot Framework test node as consumed by `start_suite`: only its tags
matter (plus a name to tell tests apart). -/
structure RTest where
  name : String
  tags : List String
deriving Repr, DecidableEq

/-- The truthiness of `set(t.tags) & set(tag_list)`. -/
def set_intersects (a b : List String) : Bool :=
  a.any (fun t => b.contains t)

/-- The comprehension `[t for t in tests if (set(t.tags) & set(tag_list))]`. -/
def filter_by_tags (tag_list : List String) (tests : List RTest) : List RTest :=
  tests.filter (fun t => set_intersects t.tags tag_list)

/-- The view of a Robot Framework suite that `start_suite` touches: its
test list, its name (used in log messages) and whether `suite.parent is
None`. -/
structure FlatSuite where
  name : String
  parent_is_none : Bool
  tests : List RTest
deriving Repr, DecidableEq

/-- `_log_to_parent_suite` (lines 95-103): emit
`"{suite}: {message}"` only when `suite.parent is None`.  The returned list
is the sequence of messages handed to `LOGGER.error`. -/
def log_to_parent_suite (suite : FlatSuite) (message : String) : List String :=
  if suite.parent_is_none then [suite.name ++ ": " ++ message] else []

/-- The mutable state of a `TestRailPreRunModifier` instance that the claims
touch: the coerced `results_depth` and the two memo fields
`_tr_tags_list` / `_tr_stable_tags_list`. -/
structure ModifierState where
  results_depth : Nat
  tr_tags_cache : Option (List String)
  tr_stable_tags_cache : Option (List String)
deriving Repr, DecidableEq

/-- `str.isdigit()` on the ASCII strings at hand: nonempty and all digits
(working on the character list of the string). -/
def str_isdigit (s : String) : Bool :=
  !s.data.isEmpty && s.data.all Char.isDigit

/-- Decimal value of a digit string, the `int(...)` of a string that
passed `isdigit()`. -/
def digits_to_nat (cs : List Char) : Nat :=
  cs.foldl (fun acc c => acc * 10 + (c.toNat - 48)) 0

/-- Line 66: `int(results_depth) if str(results_depth).isdigit() else 0`. -/
def parse_results_depth (s : String) : Nat :=
  if str_isdigit s then digits_to_nat s.data else 0

/-- The message carried by an exception (`str(error)`). -/
def TRError.msg : TRError → String
  | TRError.requestError m => m
  | TRError.timeoutError m => m
  | TRError.otherError m => m

/-- `start_suite` (lines 168-190), one call on one suite.  The two
`resolve_*` arguments stand for what `_get_tr_stable_tags_list` /
`_get_tr_tags_list` would return if invoked now (they are invoked only on a
cache miss in the branch `results_depth > 0` selects, mirroring the
`tr_stable_tags_list` / `tr_tags_list` properties, which memoize only on
success).  The result carries the new modifier state, the updated suite and
the logged messages; exceptions other than `(RequestException, TimeoutError)`
escape the `except` clause and are returned as `Except.error`. -/
def start_suite (st : ModifierState) (suite : FlatSuite)
    (resolve_stable : Except TRError (List String))
    (resolve_member : Except TRError (List String)) :
    Except TRError (ModifierState × FlatSuite × List String) :=
  if 0 < st.results_depth then
    match st.tr_stable_tags_cache with
    | some tags =>
        Except.ok (st, { suite with tests := filter_by_tags tags suite.tests }, [])
    | none =>
      match resolve_stable with
      | Except.ok tags =>
          Except.ok ({ st with tr_stable_tags_cache := some tags },
            { suite with tests := filter_by_tags tags suite.tests }, [])
      | Except.error e =>
          if is_comm_error e then
            Except.ok (st, { suite with tests := [] },
              log_to_parent_suite suite (TRError.msg e))
          else Except.error e
  else
    match st.tr_tags_cache with
    | some tags =>
        Except.ok (st, { suite with tests := filter_by_tags tags suite.tests }, [])
    | none =>
      match resolve_member with
      | Except.ok tags =>
          Except.ok ({ st with tr_tags_cache := some tags },
            { suite with tests := filter_by_tags tags suite.tests }, [])
      | Except.error e =>
          if is_comm_error e then
            Except.ok (st, { suite with tests := [] },
              log_to_parent_suite suite (TRError.msg e))
          else Except.error e

/-- A Robot Framework suite tree as consumed by `end_suite`: a name, direct
tests and child suites. -/
inductive RSuite where
  | node (name : String) (tests : List RTest) (suites : List RSuite)
deriving Repr

/-- `suite.test_count`: the total number of tests in the subtree. -/
def test_count : RSuite → Nat
  | RSuite.node _ ts ss => ts.length + (ss.attach.map (fun c => test_count c.1)).sum
decreasing_by
  have h := List.sizeOf_lt_of_mem c.2
  simp only [RSuite.node.sizeOf_spec]
  omega

/-- The direct child suites of a suite node. -/
def RSuite.children : RSuite → List RSuite
  | RSuite.node _ _ ss => ss

/-- The name of a suite node. -/
def RSuite.sname : RSuite → String
  | RSuite.node n _ _ => n

/-- The direct tests of a suite node. -/
def RSuite.direct_tests : RSuite → List RTest
  | RSuite.node _ ts _ => ts

/-- The diagnostic emitted by `end_suite`. -/
def NO_TESTS_MSG : String :=
  "No tests to execute after using TestRail pre-run modifier."

/-- `end_suite` (lines 192-200), one call on one suite node whose children
have already been visited: keep the children with positive `test_count`,
and when none remain, log through `_log_to_parent_suite` (which emits only
when `suite.parent is None`, flagged here by `is_top`). -/
def end_suite (is_top : Bool) (s : RSuite) : RSuite × List String :=
  match s with
  | RSuite.node name ts ss =>
    let kept := ss.filter (fun c => 0 < test_count c)
    (RSuite.node name ts kept,
      if kept.isEmpty then
        log_to_parent_suite ⟨name, is_top, []⟩ NO_TESTS_MSG
      else [])

/-- The state of the memoizing `tr_tags_list` / `tr_stable_tags_list`
property together with a count of how many times the underlying
`_get_tr_*_tags_list` network computation has run. -/
structure CacheState where
  cache : Option (List String)
  calls : Nat
deriving Repr, DecidableEq

/-- One access to the memoizing property (lines 71-93): on a cache miss run
the network computation — `tracker n` is what the tracker data yields for
the n-th computation, so changing tracker data between accesses is a
`tracker` that differs at different indices — and memoize it on success;
on a hit return the cached list without touching the network. -/
def tags_access (tracker : Nat → Except TRError (List String)) (st : CacheState) :
    CacheState × Except TRError (List String) :=
  match st.cache with
  | some tags => (st, Except.ok tags)
  | none =>
    match tracker st.calls with
    | Except.ok tags => ({ cache := some tags, calls := st.calls + 1 }, Except.ok tags)
    | Except.error e => ({ st with calls := st.calls + 1 }, Except.error e)

/-! ## Helper lemmas -/

/-- Counting passed results equals "full window, all passed" whenever the
tracker honoured the `limit` parameter (at most `d` results returned). -/
theorem classify_stable_iff (d : Nat) (rs : List ResultRec) (hlen : rs.length ≤ d) :
    classify_stable d rs = true ↔
      (rs.length = d ∧ ∀ r ∈ rs, r.status_id = TESTRAIL_STATUS_ID_PASSED) := by
  unfold classify_stable
  rw [beq_iff_eq]
  constructor
  · intro h
    have hle := List.length_filter_le
      (fun r => r.status_id == TESTRAIL_STATUS_ID_PASSED) rs
    have heq : rs.length = d := le_antisymm hlen (by omega)
    have hflen : (rs.filter (fun r => r.status_id == TESTRAIL_STATUS_ID_PASSED)).length
        = rs.length := by omega
    have hall := List.filter_length_eq_length.mp hflen
    exact ⟨heq, fun r hr => beq_iff_eq.mp (hall r hr)⟩
  · rintro ⟨h1, h2⟩
    have hself : rs.filter (fun r => r.status_id == TESTRAIL_STATUS_ID_PASSED) = rs :=
      List.filter_eq_self.mpr (fun r hr => beq_iff_eq.mpr (h2 r hr))
    rw [hself, h1]

/-- Under the honoured `limit`, the code's classification and the spec's
wording agree as Booleans. -/
theorem classify_eq_spec (d : Nat) (rs : List ResultRec) (hlen : rs.length ≤ d) :
    classify_stable d rs = stable_per_spec d rs := by
  have h1 := classify_stable_iff d rs hlen
  have h2 : stable_per_spec d rs = true ↔
      (rs.length = d ∧ ∀ r ∈ rs, r.status_id = TESTRAIL_STATUS_ID_PASSED) := by
    simp [stable_per_spec, List.all_eq_true]
  rw [Bool.eq_iff_iff, h1, h2]

/-- Folding `future_handler` over all-successful fetches appends exactly the
ids passing `classify_stable` and captures no exception. -/
theorem stable_foldl_ok (d : Nat) (res : Nat → List ResultRec) (l : List Nat) :
    ∀ acc : List Nat × List String,
      l.foldl (fun acc cid => future_handler d cid (Except.ok (res cid)) acc) acc
        = (acc.1 ++ l.filter (fun cid => classify_stable d (res cid)), acc.2) := by
  induction l with
  | nil => intro acc; simp
  | cons cid rest ih =>
    intro acc
    rw [List.foldl_cons]
    cases hc : classify_stable d (res cid) with
    | true =>
      have hstep : future_handler d cid (Except.ok (res cid)) acc
          = (acc.1 ++ [cid], acc.2) := by
        simp [future_handler, hc]
      rw [hstep, ih]
      simp [List.filter_cons, hc]
    | false =>
      have hstep : future_handler d cid (Except.ok (res cid)) acc = acc := by
        simp [future_handler, hc]
      rw [hstep, ih]
      simp [List.filter_cons, hc]

/-- Folding `future_handler` appends the captured `RequestException`s in
processing order to the exception accumulator. -/
theorem stable_foldl_errors (d : Nat)
    (fetch : Nat → Except String (List ResultRec)) (l : List Nat) :
    ∀ acc : List Nat × List String,
      (l.foldl (fun acc cid => future_handler d cid (fetch cid) acc) acc).2
        = acc.2 ++ captured_errors fetch l := by
  induction l with
  | nil => intro acc; simp [captured_errors]
  | cons cid rest ih =>
    intro acc
    rw [List.foldl_cons]
    cases hf : fetch cid with
    | error e =>
      have hstep : future_handler d cid (Except.error e) acc
          = (acc.1, acc.2 ++ [e]) := rfl
      rw [hstep, ih]
      simp [captured_errors, List.filterMap_cons, hf]
    | ok rs =>
      cases hc : classify_stable d rs with
      | true =>
        have hstep : future_handler d cid (Except.ok rs) acc
            = (acc.1 ++ [cid], acc.2) := by
          simp [future_handler, hc]
        rw [hstep, ih]
        simp [captured_errors, List.filterMap_cons, hf]
      | false =>
        have hstep : future_handler d cid (Except.ok rs) acc = acc := by
          simp [future_handler, hc]
        rw [hstep, ih]
        simp [captured_errors, List.filterMap_cons, hf]

/-! ## Claims -/

/-- C1: In stability mode (`results_depth` d > 0), for every case id
collected from the passed-tests query, assuming the per-case fetch returns
at most d results, the case is classified stable iff the returned result
list has length exactly d with every entry `PASSED`; accordingly the tag
list produced by an error-free stability resolution is exactly the tags of
the case ids satisfying that condition. -/
theorem stable_classification_iff_full_passed_window
    (d : Nat) (info : List TestRec) (res : Nat → List ResultRec)
    (_hd : 0 < d)
    (hlen : ∀ cid ∈ info.filterMap (fun t => t.case_id), (res cid).length ≤ d) :
    (∀ cid ∈ info.filterMap (fun t => t.case_id),
        (classify_stable d (res cid) = true ↔
          ((res cid).length = d ∧
            ∀ r ∈ res cid, r.status_id = TESTRAIL_STATUS_ID_PASSED))) ∧
    get_tr_stable_tags_list d info (fun cid => Except.ok (res cid))
      = Except.ok (((info.filterMap (fun t => t.case_id)).filter
          (fun cid => stable_per_spec d (res cid))).map tag_of_case_id) := by
  constructor
  · intro cid hcid
    exact classify_stable_iff d (res cid) (hlen cid hcid)
  · unfold get_tr_stable_tags_list
    rw [stable_foldl_ok d res (info.filterMap fun t => t.case_id) ([], [])]
    simp only [List.nil_append]
    rw [List.filter_congr (fun cid hcid => classify_eq_spec d (res cid) (hlen cid hcid))]

theorem stable_classification_witness :
    classify_stable 3 [⟨1⟩, ⟨1⟩, ⟨1⟩] = true ↔
      (([⟨1⟩, ⟨1⟩, ⟨1⟩] : List ResultRec).length = 3 ∧
        ∀ r ∈ ([⟨1⟩, ⟨1⟩, ⟨1⟩] : List ResultRec),
          r.status_id = TESTRAIL_STATUS_ID_PASSED) :=
  (stable_classification_iff_full_passed_window 3 [⟨some 7⟩]
      (fun _ => [⟨1⟩, ⟨1⟩, ⟨1⟩]) (by decide) (by decide)).1 7 (by decide)

/-- C2: when any per-case fetch of a stability resolution raises a
communication error, the whole resolution raises the first captured
exception and yields no tag list at all. -/
theorem stable_resolution_raises_first_error
    (d : Nat) (info : List TestRec) (fetch : Nat → Except String (List ResultRec))
    (h : ∃ cid ∈ info.filterMap (fun t => t.case_id),
      ∃ e, fetch cid = Except.error e) :
    ∃ e, (captured_errors fetch (info.filterMap (fun t => t.case_id))).head? = some e ∧
      get_tr_stable_tags_list d info fetch = Except.error (TRError.requestError e) ∧
      ∀ tags, get_tr_stable_tags_list d info fetch ≠ Except.ok tags := by
  obtain ⟨cid, hcid, e0, hf⟩ := h
  have hmem : e0 ∈ captured_errors fetch (info.filterMap fun t => t.case_id) := by
    rw [captured_errors, List.mem_filterMap]
    exact ⟨cid, hcid, by rw [hf]⟩
  have hne := List.ne_nil_of_mem hmem
  cases hcap : captured_errors fetch (info.filterMap fun t => t.case_id) with
  | nil => exact absurd hcap hne
  | cons e rest =>
    have herr := stable_foldl_errors d fetch (info.filterMap fun t => t.case_id) ([], [])
    rw [hcap, List.nil_append] at herr
    have hres : get_tr_stable_tags_list d info fetch
        = Except.error (TRError.requestError e) := by
      unfold get_tr_stable_tags_list
      cases hfold : (info.filterMap fun t => t.case_id).foldl
          (fun acc cid => future_handler d cid (fetch cid) acc) ([], []) with
      | mk sids errs =>
        rw [hfold] at herr
        simp only at herr
        rw [herr]
    refine ⟨e, rfl, hres, ?_⟩
    intro tags hcontra
    rw [hres] at hcontra
    exact Except.noConfusion hcontra

theorem stable_resolution_error_witness :
    ∃ e, (captured_errors
        (fun cid => if cid = 11 then Except.error "connection reset"
          else Except.ok [⟨1⟩])
        (([⟨some 10⟩, ⟨some 11⟩] : List TestRec).filterMap
          (fun t => t.case_id))).head? = some e ∧
      get_tr_stable_tags_list 1 [⟨some 10⟩, ⟨some 11⟩]
        (fun cid => if cid = 11 then Except.error "connection reset"
          else Except.ok [⟨1⟩]) = Except.error (TRError.requestError e) ∧
      ∀ tags, get_tr_stable_tags_list 1 [⟨some 10⟩, ⟨some 11⟩]
        (fun cid => if cid = 11 then Except.error "connection reset"
          else Except.ok [⟨1⟩]) ≠ Except.ok tags :=
  stable_resolution_raises_first_error 1 [⟨some 10⟩, ⟨some 11⟩]
    (fun cid => if cid = 11 then Except.error "connection reset"
      else Except.ok [⟨1⟩])
    ⟨11, by decide, "connection reset", rfl⟩

/-- C3 counterexample: a communication error during tag resolution for a
non-top-level suite logs nothing (the claim says the error is logged
against the top-level suite), and - because the failed resolution is not
cached - the very next suite retries resolution, succeeds, and keeps its
matching test (the claim says no suite filtered after such an error can
contain tests). -/
theorem start_suite_error_then_tests_counterexample :
    start_suite ⟨0, none, none⟩ ⟨"Child", false, []⟩
        (Except.error (TRError.requestError "tracker down"))
        (Except.error (TRError.requestError "tracker down"))
      = Except.ok (⟨0, none, none⟩, ⟨"Child", false, []⟩, ([] : List String)) ∧
    start_suite ⟨0, none, none⟩
        ⟨"Next", false, [⟨"Autotest 1", ["testrailid=10"]⟩]⟩
        (Except.ok [])
        (Except.ok ["testrailid=10"])
      = Except.ok (⟨0, some ["testrailid=10"], none⟩,
          ⟨"Next", false, [⟨"Autotest 1", ["testrailid=10"]⟩]⟩, ([] : List String)) := by
  exact ⟨rfl, rfl⟩

/-- C3 (amended): for every suite passed to `start_suite`, if tag-set
resolution raises a communication or timeout error, the suite's test list
ends up empty, the error does not propagate, and it is logged only when the
suite itself is top-level; the modifier state is unchanged (the failure is
not cached), so later suites retry resolution. -/
theorem start_suite_comm_error_recovery
    (st : ModifierState) (suite : FlatSuite)
    (rs rm : Except TRError (List String)) (e : TRError)
    (hcomm : is_comm_error e = true)
    (hres : (if 0 < st.results_depth then rs else rm) = Except.error e)
    (hcache : (if 0 < st.results_depth then st.tr_stable_tags_cache
      else st.tr_tags_cache) = none) :
    start_suite st suite rs rm =
      Except.ok (st, { suite with tests := [] },
        log_to_parent_suite suite (TRError.msg e)) := by
  unfold start_suite
  by_cases hd : 0 < st.results_depth
  · rw [if_pos hd] at hres hcache
    rw [if_pos hd, hcache, hres]
    simp [hcomm]
  · rw [if_neg hd] at hres hcache
    rw [if_neg hd, hcache, hres]
    simp [hcomm]

theorem start_suite_comm_error_recovery_witness :
    start_suite ⟨0, none, none⟩
        ⟨"Root", true, [⟨"Autotest 1", ["testrailid=10"]⟩]⟩
        (Except.ok []) (Except.error (TRError.requestError "tracker down"))
      = Except.ok (⟨0, none, none⟩, ⟨"Root", true, []⟩,
          ["Root: tracker down"]) :=
  start_suite_comm_error_recovery ⟨0, none, none⟩
    ⟨"Root", true, [⟨"Autotest 1", ["testrailid=10"]⟩]⟩
    (Except.ok []) (Except.error (TRError.requestError "tracker down"))
    (TRError.requestError "tracker down") rfl rfl rfl

/-- C4: in membership mode the resolved tag set has one `testrailid` tag
per test of the run with a non-null case id, and `start_suite` replaces the
suite's test list with exactly the tests whose tag set meets it. -/
theorem membership_filtering_characterization
    (st : ModifierState) (suite : FlatSuite) (tests_info : List TestRec)
    (rs : Except TRError (List String)) (statuses : List StatusRec)
    (gt : Option (List Nat) → Except TRError (List TestRec))
    (hd : st.results_depth = 0) (hcache : st.tr_tags_cache = none)
    (hgt : gt none = Except.ok tests_info) :
    get_tr_tags_list statuses [] gt = Except.ok (tags_of_tests tests_info) ∧
    start_suite st suite rs (get_tr_tags_list statuses [] gt)
      = Except.ok ({ st with tr_tags_cache := some (tags_of_tests tests_info) },
          { suite with
            tests := filter_by_tags (tags_of_tests tests_info) suite.tests },
          []) ∧
    (∀ t, t ∈ filter_by_tags (tags_of_tests tests_info) suite.tests ↔
        (t ∈ suite.tests ∧ ∃ tag ∈ t.tags, tag ∈ tags_of_tests tests_info)) ∧
    (∀ tag, tag ∈ tags_of_tests tests_info ↔
        ∃ cid, TestRec.mk (some cid) ∈ tests_info ∧ tag = tag_of_case_id cid) := by
  have h1 : get_tr_tags_list statuses [] gt = Except.ok (tags_of_tests tests_info) := by
    simp [get_tr_tags_list, hgt]
  refine ⟨h1, ?_, ?_, ?_⟩
  · unfold start_suite
    rw [hd]
    simp only [Nat.lt_irrefl, if_false]
    rw [hcache, h1]
  · intro t
    simp [filter_by_tags, set_intersects, List.mem_filter, List.any_eq_true,
      List.elem_iff]
  · intro tag
    simp only [tags_of_tests, List.mem_filterMap, Option.map_eq_some']
    constructor
    · rintro ⟨t, ht, cid, hcid, htag⟩
      cases t with
      | mk oc =>
        cases hcid
        exact ⟨cid, ht, htag.symm⟩
    · rintro ⟨cid, hmem, rfl⟩
      exact ⟨TestRec.mk (some cid), hmem, cid, rfl, rfl⟩

theorem membership_filtering_witness :
    start_suite ⟨0, none, none⟩
        ⟨"Suite", true,
          [⟨"Autotest 1", ["testrailid=10"]⟩, ⟨"Autotest 2", ["testrailid=11"]⟩,
            ⟨"Autotest 3", ["testrailid=12"]⟩]⟩
        (Except.ok [])
        (get_tr_tags_list [] []
          (fun _ => Except.ok [⟨some 10⟩, ⟨some 12⟩]))
      = Except.ok (⟨0, some ["testrailid=10", "testrailid=12"], none⟩,
          ⟨"Suite", true,
            [⟨"Autotest 1", ["testrailid=10"]⟩, ⟨"Autotest 3", ["testrailid=12"]⟩]⟩,
          []) := by
  have h := (membership_filtering_characterization ⟨0, none, none⟩
    ⟨"Suite", true,
      [⟨"Autotest 1", ["testrailid=10"]⟩, ⟨"Autotest 2", ["testrailid=11"]⟩,
        ⟨"Autotest 3", ["testrailid=12"]⟩]⟩
    [⟨some 10⟩, ⟨some 12⟩] (Except.ok []) []
    (fun _ => Except.ok [⟨some 10⟩, ⟨some 12⟩]) rfl rfl rfl).2.1
  simpa using h

/-- C5: the memoizing tag-resolution property runs the tracker computation
exactly once: the first (successful) access caches the list, and a second
access returns the same list without another tracker call, whatever the
tracker would answer next. -/
theorem tag_resolution_cached_once
    (tracker : Nat → Except TRError (List String)) (l : List String)
    (h : tracker 0 = Except.ok l) :
    (tags_access tracker ⟨none, 0⟩).1.calls = 1 ∧
    (tags_access tracker ⟨none, 0⟩).2 = Except.ok l ∧
    (tags_access tracker (tags_access tracker ⟨none, 0⟩).1).1.calls = 1 ∧
    (tags_access tracker (tags_access tracker ⟨none, 0⟩).1).2 = Except.ok l := by
  simp [tags_access, h]

theorem tag_resolution_cached_once_witness :
    (tags_access
        (fun n => if n = 0 then Except.ok ["testrailid=10"]
          else Except.ok ["testrailid=99"]) ⟨none, 0⟩).1.calls = 1 ∧
    (tags_access
        (fun n => if n = 0 then Except.ok ["testrailid=10"]
          else Except.ok ["testrailid=99"]) ⟨none, 0⟩).2
      = Except.ok ["testrailid=10"] ∧
    (tags_access
        (fun n => if n = 0 then Except.ok ["testrailid=10"]
          else Except.ok ["testrailid=99"])
        (tags_access
          (fun n => if n = 0 then Except.ok ["testrailid=10"]
            else Except.ok ["testrailid=99"]) ⟨none, 0⟩).1).1.calls = 1 ∧
    (tags_access
        (fun n => if n = 0 then Except.ok ["testrailid=10"]
          else Except.ok ["testrailid=99"])
        (tags_access
          (fun n => if n = 0 then Except.ok ["testrailid=10"]
            else Except.ok ["testrailid=99"]) ⟨none, 0⟩).1).2
      = Except.ok ["testrailid=10"] :=
  tag_resolution_cached_once
    (fun n => if n = 0 then Except.ok ["testrailid=10"]
      else Except.ok ["testrailid=99"]) ["testrailid=10"] rfl

/-- C6: `end_suite` keeps exactly the direct child suites whose recursive
test count is positive, leaves the name and the direct tests alone, and
logs the no-tests diagnostic exactly when the suite is top-level and no
child suite remains. -/
theorem end_suite_prunes_empty_children (is_top : Bool) (s : RSuite) :
    ((end_suite is_top s).1).sname = s.sname ∧
    ((end_suite is_top s).1).direct_tests = s.direct_tests ∧
    (∀ c, c ∈ ((end_suite is_top s).1).children ↔
        (c ∈ s.children ∧ 0 < test_count c)) ∧
    ((end_suite is_top s).2 =
      if is_top && ((end_suite is_top s).1).children.isEmpty then
        [s.sname ++ ": " ++ NO_TESTS_MSG]
      else []) := by
  cases s with
  | node name ts ss =>
    refine ⟨rfl, rfl, ?_, ?_⟩
    · intro c
      simp [end_suite, RSuite.children, List.mem_filter]
    · simp only [end_suite, RSuite.children, RSuite.sname, log_to_parent_suite]
      cases htop : is_top with
      | false => simp
      | true =>
        cases hk : (ss.filter fun c => decide (0 < test_count c)).isEmpty with
        | false => simp [hk]
        | true => simp [hk]

/-- C7: a non-numeric or negative `results_depth` string is coerced to 0,
so construction behaves exactly as with `results_depth="0"`: stability
analysis is disabled and `start_suite` takes the membership branch. -/
theorem invalid_results_depth_coerces_to_zero :
    parse_results_depth "-1" = 0 ∧ parse_results_depth "abc" = 0 ∧
    parse_results_depth "0" = 0 ∧
    ∀ c1 c2 suite rs rm,
      start_suite ⟨parse_results_depth "-1", c1, c2⟩ suite rs rm
          = start_suite ⟨parse_results_depth "0", c1, c2⟩ suite rs rm ∧
      start_suite ⟨parse_results_depth "abc", c1, c2⟩ suite rs rm
          = start_suite ⟨parse_results_depth "0", c1, c2⟩ suite rs rm := by
  have h1 : parse_results_depth "-1" = 0 := by decide
  have h2 : parse_results_depth "abc" = 0 := by decide
  have h3 : parse_results_depth "0" = 0 := by decide
  refine ⟨h1, h2, h3, ?_⟩
  intro c1 c2 suite rs rm
  rw [h1, h2, h3]
  exact ⟨rfl, rfl⟩

/-- C8: a test record with a null case id contributes no tag in either
mode, hence removing it changes neither the resolved tag set nor the
outcome of any filtering based on it. -/
theorem null_case_id_produces_no_tag
    (l1 l2 : List TestRec) (r : TestRec) (h : r.case_id = none) :
    tags_of_tests (l1 ++ r :: l2) = tags_of_tests (l1 ++ l2) ∧
    (l1 ++ r :: l2).filterMap (fun t => t.case_id)
        = (l1 ++ l2).filterMap (fun t => t.case_id) ∧
    (∀ d fetch, get_tr_stable_tags_list d (l1 ++ r :: l2) fetch
        = get_tr_stable_tags_list d (l1 ++ l2) fetch) ∧
    (∀ tests, filter_by_tags (tags_of_tests (l1 ++ r :: l2)) tests
        = filter_by_tags (tags_of_tests (l1 ++ l2)) tests) := by
  have h1 : tags_of_tests (l1 ++ r :: l2) = tags_of_tests (l1 ++ l2) := by
    simp [tags_of_tests, List.filterMap_append, List.filterMap_cons, h]
  have h2 : (l1 ++ r :: l2).filterMap (fun t => t.case_id)
      = (l1 ++ l2).filterMap (fun t => t.case_id) := by
    simp [List.filterMap_append, List.filterMap_cons, h]
  refine ⟨h1, h2, ?_, ?_⟩
  · intro d fetch
    unfold get_tr_stable_tags_list
    rw [h2]
  · intro tests
    rw [h1]

theorem null_case_id_witness :
    tags_of_tests (([⟨some 10⟩] : List TestRec) ++ (⟨none⟩ : TestRec) :: [])
        = tags_of_tests (([⟨some 10⟩] : List TestRec) ++ []) ∧
    ((([⟨some 10⟩] : List TestRec) ++ (⟨none⟩ : TestRec) :: []).filterMap
        (fun t : TestRec => t.case_id)
        = ((([⟨some 10⟩] : List TestRec) ++ []).filterMap
            (fun t : TestRec => t.case_id))) ∧
    (∀ d fetch,
      get_tr_stable_tags_list d (([⟨some 10⟩] : List TestRec) ++ (⟨none⟩ : TestRec) :: []) fetch
        = get_tr_stable_tags_list d (([⟨some 10⟩] : List TestRec) ++ []) fetch) ∧
    (∀ tests,
      filter_by_tags (tags_of_tests (([⟨some 10⟩] : List TestRec) ++ (⟨none⟩ : TestRec) :: [])) tests
        = filter_by_tags (tags_of_tests (([⟨some 10⟩] : List TestRec) ++ [])) tests) :=
  null_case_id_produces_no_tag [⟨some 10⟩] [] ⟨none⟩ rfl

/-- C9: `get_status_id_by_status_label` succeeds exactly on a
case-insensitive label match (returning the id of a matching status) and
raises otherwise; during membership-mode resolution with a status filter
the unknown-label exception surfaces from `_get_tr_tags_list` and, not
being a communication error, propagates out of `start_suite`. -/
theorem unknown_status_label_fatal
    (statuses : List StatusRec) (label : String) :
    ((∃ i, get_status_id_by_status_label statuses label = Except.ok i) ↔
        ∃ s ∈ statuses, lower_chars s.label = lower_chars label) ∧
    (∀ i, get_status_id_by_status_label statuses label = Except.ok i →
        ∃ s ∈ statuses, lower_chars s.label = lower_chars label ∧ s.id = i) ∧
    ((∀ s ∈ statuses, lower_chars s.label ≠ lower_chars label) →
      ∀ (gt : Option (List Nat) → Except TRError (List TestRec))
        (st : ModifierState) (suite : FlatSuite)
        (rs : Except TRError (List String)),
        st.results_depth = 0 → st.tr_tags_cache = none →
        ∃ m, get_tr_tags_list statuses [label] gt
            = Except.error (TRError.otherError m) ∧
          start_suite st suite rs (get_tr_tags_list statuses [label] gt)
            = Except.error (TRError.otherError m)) := by
  refine ⟨?_, ?_, ?_⟩
  · constructor
    · rintro ⟨i, hi⟩
      unfold get_status_id_by_status_label at hi
      cases hfind : statuses.find? (fun s => lower_chars s.label == lower_chars label) with
      | none => rw [hfind] at hi; exact Except.noConfusion hi
      | some s =>
        exact ⟨s, List.mem_of_find?_eq_some hfind,
          by simpa using List.find?_some hfind⟩
    · rintro ⟨s, hs, hlab⟩
      have hsome : (statuses.find? (fun x => lower_chars x.label == lower_chars label)).isSome := by
        rw [List.find?_isSome]
        exact ⟨s, hs, by simpa using hlab⟩
      unfold get_status_id_by_status_label
      cases hfind : statuses.find? (fun x => lower_chars x.label == lower_chars label) with
      | none => rw [hfind] at hsome; simp at hsome
      | some x => exact ⟨x.id, rfl⟩
  · intro i hi
    unfold get_status_id_by_status_label at hi
    cases hfind : statuses.find? (fun s => lower_chars s.label == lower_chars label) with
    | none => rw [hfind] at hi; exact Except.noConfusion hi
    | some s =>
      rw [hfind] at hi
      have hid : s.id = i := by
        simpa using hi
      exact ⟨s, List.mem_of_find?_eq_some hfind,
        by simpa using List.find?_some hfind, hid⟩
  · intro hnone gt st suite rs hd hcache
    have hfind : statuses.find? (fun s => lower_chars s.label == lower_chars label) = none :=
      List.find?_eq_none.mpr (fun s hs => by simpa using hnone s hs)
    have hlab : get_tr_tags_list statuses [label] gt
        = Except.error (TRError.otherError
          ("There is no status with label " ++ label ++ " in TestRail")) := by
      simp [get_tr_tags_list, get_status_id_by_status_label, hfind,
        List.mapM.loop]
      rfl
    refine ⟨_, hlab, ?_⟩
    unfold start_suite
    rw [hd]
    simp only [Nat.lt_irrefl, if_false]
    rw [hcache, hlab]
    rfl

theorem unknown_status_label_witness :
    ∃ m, get_tr_tags_list [⟨"Passed", 1⟩] ["nosuch"]
        (fun _ => Except.ok [⟨some 10⟩]) = Except.error (TRError.otherError m) ∧
      start_suite ⟨0, none, none⟩ ⟨"Root", true, []⟩ (Except.ok [])
          (get_tr_tags_list [⟨"Passed", 1⟩] ["nosuch"]
            (fun _ => Except.ok [⟨some 10⟩]))
        = Except.error (TRError.otherError m) :=
  (unknown_status_label_fatal [⟨"Passed", 1⟩] "nosuch").2.2
    (by decide) (fun _ => Except.ok [⟨some 10⟩]) ⟨0, none, none⟩
    ⟨"Root", true, []⟩ (Except.ok []) rfl rfl

/-- C10: `end_suite` logs the no-tests diagnostic against a parentless
suite whenever no child suite survives pruning, even if the suite keeps
direct tests; a suite with a parent logs nothing even with no children and
no tests. -/
theorem end_suite_logs_regardless_of_direct_tests
    (name : String) (ts : List RTest) (ss : List RSuite)
    (h : ∀ c ∈ ss, test_count c = 0) :
    (end_suite true (RSuite.node name ts ss)).2 = [name ++ ": " ++ NO_TESTS_MSG] ∧
    (end_suite false (RSuite.node name ts ss)).2 = [] := by
  have hk : ss.filter (fun c => decide (0 < test_count c)) = [] :=
    List.filter_eq_nil_iff.mpr (fun c hc => by simp [h c hc])
  constructor
  · simp [end_suite, hk, log_to_parent_suite]
  · simp [end_suite, hk, log_to_parent_suite]

theorem end_suite_logging_witness :
    (end_suite true (RSuite.node "Top" [⟨"Autotest 1", ["testrailid=10"]⟩] [])).2
        = ["Top" ++ ": " ++ NO_TESTS_MSG] ∧
    (end_suite false (RSuite.node "Top" [⟨"Autotest 1", ["testrailid=10"]⟩] [])).2
        = [] :=
  end_suite_logs_regardless_of_direct_tests "Top"
    [⟨"Autotest 1", ["testrailid=10"]⟩] []
    (fun c hc => absurd hc (List.not_mem_nil c))
